import Mathlib

/-!
Verification of the PDFkitten document core (`lib/document.js`).

The development shallowly embeds the state of a `PDFDocument` and the
operations of the orchestrator: the indirect-object reference store
(`ref`, `_refEnd`), the byte sink (`_write`), the page buffer
(`addPage`, `flushPages`, `switchToPage`), named destinations
(`addNamedDestination`), the version switch of the constructor, and the
finalization state machine (`end` tail guard and `_finalize`).

Collaborator classes that live in other files of the repository
(`PDFReference`, `PDFPage`, `PDFObject`, `PDFNameTree`, `PDFSecurity`)
are abstracted to the attributes the orchestrator reads or writes: a
page is its creation index plus its height, the name tree is the list of
entries added to it, and the serialization of the trailer dictionary by
`PDFObject.convert` is left out of the byte model (only its computed
`Size` entry, which `_finalize` itself computes, is modeled).
-/

namespace PDFKitten

/-- A page as the document core sees it: a creation index standing for the
page dictionary created by `PDFPage` and the page height read by
`addNamedDestination`. -/
structure PDFPage where
  id : Nat
  height : Int
deriving DecidableEq

/-- A JavaScript value appearing in a named-destination argument array. -/
inductive DestArg
  | vnull
  | vundefined
  | vnan
  | vnum (n : Int)
  | vname (s : String)
  | vpage (id : Nat)
deriving DecidableEq

/-- Data passed to `_write`: a (binary) string or a Buffer. -/
inductive WriteData
  | str (s : String)
  | buf (b : List Nat)
deriving DecidableEq

/-- Bytes of a JS string under the `binary` (latin1) encoding:
each UTF-16 code unit truncated to one byte. -/
def strBytes (s : String) : List Nat := s.data.map (fun c => c.toNat % 256)

/-- The chunk actually pushed by one `_write` call (document.js 253-255):
a string gets `'\n'` appended and is encoded, a Buffer is pushed as is. -/
def writeBytes : WriteData → List Nat
  | .str s => strBytes s ++ [10]
  | .buf b => b

/-- The state of a `PDFDocument` restricted to the fields the core
operations touch.  `flushedPages` and `finalizeLog` are ghost fields:
`flushedPages` records the pages finalized by `flushPages` (`page.end()`),
and `finalizeLog` records the value of `_waiting` each time `_finalize`
runs, so that temporal claims about the finalization machine can be
stated. -/
structure DocState where
  version : Rat
  bufferPages : Bool
  offsets : List (Option Nat)
  waiting : Int
  ended : Bool
  offset : Nat
  chunks : List (List Nat)
  pageBuffer : List PDFPage
  pageBufferStart : Nat
  page : Option PDFPage
  pagesCount : Nat
  pagesKids : List Nat
  dests : List (String × List DestArg)
  nextPageId : Nat
  pageHeight : Int
  flushedPages : List PDFPage
  finalizeLog : List Int
deriving DecidableEq

/-- JS array write `l[i] = v`: in range it overwrites, past the end it
extends the array with holes (which read back as `undefined`). -/
def jsArraySet {α : Type} (hole : α) (l : List α) (i : Nat) (v : α) : List α :=
  if i < l.length then l.set i v
  else l ++ List.replicate (i - l.length) hole ++ [v]

/-- The byte sink (document.js 253-260): append the encoded chunk and
return the cumulative offset after the write. -/
def _write (d : WriteData) (s : DocState) : Nat × DocState :=
  let bytes := writeBytes d
  (s.offset + bytes.length,
   { s with chunks := s.chunks ++ [bytes], offset := s.offset + bytes.length })

/-- Write a list of lines through `_write` in order. -/
def writeAll (lines : List String) (s : DocState) : DocState :=
  lines.foldl (fun t line => (_write (.str line) t).2) s

/-- JS string coercion of an offset slot (`null` prints as `"null"`). -/
def jsOffsetString : Option Nat → String
  | some o => toString o
  | none => "null"

/-- JS `str.slice(-10)`: the last 10 characters (the whole string when it
is shorter than 10). -/
def jsSliceLast10 (s : String) : String := ⟨s.data.drop (s.data.length - 10)⟩

/-- One xref entry body (document.js 349): `` `0000000000${offset}`.slice(-10) ``. -/
def padOffset (o : Option Nat) : String := jsSliceLast10 ("0000000000" ++ jsOffsetString o)

/-- The xref entry lines written by `_finalize` (document.js 346-351):
the reserved free entry, then one fixed-width line per offset slot. -/
def xrefEntryLines (offsets : List (Option Nat)) : List String :=
  "0000000000 65535 f " :: offsets.map (fun o => padOffset o ++ " 00000 n ")

/-- The xref subsection header line (document.js 345). -/
def xrefSubheader (offsets : List (Option Nat)) : String :=
  "0 " ++ toString (offsets.length + 1)

/-- The `Size` entry of the trailer dictionary (document.js 355). -/
def trailerSize (offsets : List (Option Nat)) : Nat := offsets.length + 1

/-- The file completion step (document.js 341-373): emit the xref table
(the `xref` keyword, the subsection header, the entry lines), then the
`trailer` keyword, then `startxref` with the byte offset the table
started at (the running offset captured at entry), then the EOF marker.
The serialization of the trailer dictionary body by `PDFObject.convert`
(object.js, not part of the orchestrator) is not expanded into bytes;
its `Size` entry is `trailerSize s0.offsets`.  The ghost field
`finalizeLog` records the value of `_waiting` at entry. -/
def _finalize (s0 : DocState) : DocState :=
  writeAll ("trailer" :: "startxref" :: toString s0.offset :: ["%%EOF"])
    (writeAll ("xref" :: xrefSubheader s0.offsets :: xrefEntryLines s0.offsets)
      { s0 with finalizeLog := s0.finalizeLog ++ [s0.waiting] })

/-- Completion callback of a reference (document.js 267-273): record the
offset, decrement the outstanding counter (`--this._waiting === 0` is the
test on the decremented value, written here with the decrement hoisted),
and finalize the file when the counter reaches zero after `end()` already
ran (`this._ended = false` is returned, clearing the flag). -/
def _refEnd (id off : Nat) (s : DocState) : DocState :=
  if s.waiting - 1 = 0 ∧ s.ended then
    { _finalize { s with offsets := jsArraySet none s.offsets (id - 1) (some off),
                         waiting := s.waiting - 1 } with ended := false }
  else { s with offsets := jsArraySet none s.offsets (id - 1) (some off),
                waiting := s.waiting - 1 }

/-- The completion guard that ends `end()` (document.js 334-338): finalize
now when nothing is outstanding, otherwise record that the end was
requested.  The serialization work earlier in `end()` consists of
`ref`/`end` calls on references, which appear as `alloc`/`refEnd` events
in the trace model below. -/
def endTail (s : DocState) : DocState :=
  if s.waiting = 0 then _finalize s else { s with ended := true }

/-- Reference allocation (document.js 243-248): the next sequential id,
one placeholder offset slot, one more outstanding reference. -/
def ref (s : DocState) : Nat × DocState :=
  (s.offsets.length + 1,
   { s with offsets := s.offsets ++ [none], waiting := s.waiting + 1 })

/-- Flush the page buffer (document.js 197-207): empty the buffer, advance
the buffer start index, and finalize every page that was buffered (the
ghost field `flushedPages` records them in order). -/
def flushPages (s : DocState) : DocState :=
  let pages := s.pageBuffer
  { s with pageBuffer := [],
           pageBufferStart := s.pageBufferStart + pages.length,
           flushedPages := s.flushedPages ++ pages }

/-- Add a page (document.js 137-168): flush the existing buffer first when
page buffering is off, create the page, push it onto the buffer, and add
its dictionary to the root `Pages` tree (`Kids` gets the dictionary,
`Count` is incremented).  Drawing-state resets (cursor, coordinate flip)
live in the vector mixin and carry no state modeled here. -/
def addPage (s : DocState) : DocState :=
  let s1 := if s.bufferPages then s else flushPages s
  let pg : PDFPage := ⟨s1.nextPageId, s1.pageHeight⟩
  { s1 with page := some pg,
            pageBuffer := s1.pageBuffer ++ [pg],
            pagesKids := s1.pagesKids ++ [pg.id],
            pagesCount := s1.pagesCount + 1,
            nextPageId := s1.nextPageId + 1 }

/-- JS array read `l[i]` with a possibly negative index. -/
def jsArrGet (l : List PDFPage) (i : Int) : Option PDFPage :=
  if i < 0 then none else l.get? i.toNat

/-- The error message thrown by `switchToPage` (document.js 187-191). -/
def switchErrMsg (n start len : Nat) : String :=
  let last : Int := (start : Int) + len - 1
  s!"switchToPage({n}) out of bounds, current buffer covers pages {start} to {last}"

/-- Switch the current page to a buffered one (document.js 184-195): index
the buffer at `n - pageBufferStart`; a miss throws before any state is
touched, a hit installs the page as current. -/
def switchToPage (n : Nat) (s : DocState) : Except String PDFPage × DocState :=
  match jsArrGet s.pageBuffer ((n : Int) - s.pageBufferStart) with
  | some page => (.ok page, { s with page := some page })
  | none => (.error (switchErrMsg n s.pageBufferStart s.pageBuffer.length), s)

/-- JS array read with `undefined` for a missing index. -/
def jsGetArg (args : List DestArg) (i : Nat) : DestArg := (args.get? i).getD .vundefined

/-- JS numeric subtraction `h - v` as it appears in `addNamedDestination`:
defined on numbers; the destination type names and object values that can
occur in an argument slot coerce to `NaN` (`null` cannot reach this
subtraction because the guard excludes it). -/
def jsSub (h : Int) : DestArg → DestArg
  | .vnum y => .vnum (h - y)
  | _ => .vnan

/-- Add a named destination (document.js 209-218): default the arguments
to `['XYZ', null, null, null]`, flip the Y coordinate of an `XYZ`
destination whose Y slot is not `null`, prepend the current page's
dictionary, and add the entry to the `Dests` name tree.  The name tree
(`PDFNameTree.add`, name_tree.js) keeps keys sorted; the model records
the entries in insertion order since only the stored values matter here.
Reading `this.page.height` with no current page is a JS `TypeError`,
modeled as `none`. -/
def addNamedDestination (name : String) (args : List DestArg) (s : DocState) :
    Option DocState :=
  match s.page with
  | none => none
  | some pg =>
    let args := if args.length = 0 then [.vname "XYZ", .vnull, .vnull, .vnull] else args
    let args :=
      if jsGetArg args 0 = .vname "XYZ" ∧ jsGetArg args 2 ≠ .vnull then
        jsArraySet .vundefined args 2 (jsSub pg.height (jsGetArg args 2))
      else args
    some { s with dests := s.dests ++ [(name, .vpage pg.id :: args)] }

/-- The version switch of the constructor (document.js 33-50). -/
def docVersion : Option String → Rat
  | some "1.4" => 1.4
  | some "1.5" => 1.5
  | some "1.6" => 1.6
  | some "1.7" => 1.7
  | some "1.7ext3" => 1.7
  | _ => 1.3

/-- JS rendering of the version number in the header line. -/
def versionText (v : Rat) : String :=
  if v = 1.4 then "1.4" else if v = 1.5 then "1.5"
  else if v = 1.6 then "1.6" else if v = 1.7 then "1.7" else "1.3"

/-- Construction-time options read by the modeled core. `pageHeight`
stands for the page size options interpreted by `PDFPage`. -/
structure DocOptions where
  pdfVersion : Option String := none
  bufferPages : Bool := false
  autoFirstPage : Bool := true
  pageHeight : Int := 792
deriving DecidableEq

/-- The constructor (document.js 28-135) restricted to the modeled core:
select the version, initialize the store and buffers, allocate the
`Pages`, `Names` and catalog references, write the two header lines, and
add the first page unless `autoFirstPage` is `false`. -/
def mkDoc (opts : DocOptions) : DocState :=
  let s : DocState :=
    { version := docVersion opts.pdfVersion
      bufferPages := opts.bufferPages
      offsets := [], waiting := 0, ended := false, offset := 0, chunks := []
      pageBuffer := [], pageBufferStart := 0, page := none
      pagesCount := 0, pagesKids := [], dests := []
      nextPageId := 0, pageHeight := opts.pageHeight
      flushedPages := [], finalizeLog := [] }
  let (_pagesId, s) := ref s
  let (_namesId, s) := ref s
  let (_rootId, s) := ref s
  let s := (_write (.str ("%PDF-" ++ versionText s.version)) s).2
  let s := (_write (.str "%\xFF\xFF\xFF\xFF") s).2
  if opts.autoFirstPage then addPage s else s

/-- Iterated `addPage`. -/
def addPageN : Nat → DocState → DocState
  | 0, s => s
  | n + 1, s => addPage (addPageN n s)

/-- Iterated `ref`, collecting the returned ids in call order. -/
def allocList : Nat → DocState → List Nat × DocState
  | 0, s => ([], s)
  | n + 1, s =>
    let (id, s1) := ref s
    let (ids, s2) := allocList n s1
    (id :: ids, s2)

/-- Events of the finalization machine: a reference allocation, a
reference completion callback, and the guard at the end of `end()`. -/
inductive DocEv
  | alloc
  | refEnd (id off : Nat)
  | endCall
deriving DecidableEq

/-- One event step. -/
def docStep (s : DocState) : DocEv → DocState
  | .alloc => (ref s).2
  | .refEnd id off => _refEnd id off s
  | .endCall => endTail s

/-- Run a trace of events. -/
def docRun (s : DocState) (tr : List DocEv) : DocState := tr.foldl docStep s

/-- Recognize the `end()` event. -/
def isEndCall : DocEv → Bool
  | .endCall => true
  | _ => false

/-- A trace is well formed from outstanding count `w` when every
completion callback fires for a reference that is actually outstanding
(in a real run each `refEnd` is the completion of an earlier `ref`). -/
def wfTrace : Int → List DocEv → Bool
  | _, [] => true
  | w, .alloc :: tr => wfTrace (w + 1) tr
  | w, .refEnd _ _ :: tr => decide (0 < w) && wfTrace (w - 1) tr
  | w, .endCall :: tr => wfTrace w tr

/-- Write a sequence of chunks through `_write` in call order. -/
def writeSeq (ds : List WriteData) (s : DocState) : DocState :=
  ds.foldl (fun t d => (_write d t).2) s

/-- The reference-store state at document.js line 63, before the
constructor allocates the `Pages`, `Names` and catalog references. -/
def freshDoc : DocState :=
  { version := 1.3, bufferPages := false, offsets := [], waiting := 0, ended := false,
    offset := 0, chunks := [], pageBuffer := [], pageBufferStart := 0, page := none,
    pagesCount := 0, pagesKids := [], dests := [], nextPageId := 0, pageHeight := 792,
    flushedPages := [], finalizeLog := [] }

theorem allocList_ids (n : Nat) : ∀ s : DocState,
    (allocList n s).1 = List.range' (s.offsets.length + 1) n ∧
    (allocList n s).2.offsets.length = s.offsets.length + n := by
  induction n with
  | zero => intro s; simp [allocList]
  | succ n ih =>
    intro s
    obtain ⟨h1, h2⟩ := ih { s with offsets := s.offsets ++ [none], waiting := s.waiting + 1 }
    simp only [List.length_append, List.length_cons, List.length_nil] at h1 h2
    simp only [allocList, ref, List.range'_succ, h1, h2]
    constructor
    · norm_num
    · omega

/-- C2: for every sequence of allocation calls on a document's fresh
reference store, the i-th allocation returns a reference whose id is i
(ids run 1, 2, 3, … in call order, no gaps, no reuse), every single
allocation pushes exactly one placeholder slot, and after n allocations
the offsets array has length n. -/
theorem ref_ids_sequential (s : DocState) (h : s.offsets = []) (n : Nat) :
    (allocList n s).1 = List.range' 1 n ∧
    (allocList n s).2.offsets.length = n ∧
    (∀ t : DocState, (ref t).1 = t.offsets.length + 1 ∧
      ((ref t).2).offsets.length = t.offsets.length + 1) := by
  obtain ⟨h1, h2⟩ := allocList_ids n s
  rw [h] at h1 h2
  simp only [List.length_nil, Nat.zero_add] at h1 h2
  exact ⟨h1, h2, fun t => ⟨rfl, by simp [ref]⟩⟩

theorem ref_ids_sequential_witness :
    freshDoc.offsets = [] ∧
    (allocList 3 freshDoc).1 = List.range' 1 3 ∧
    (allocList 3 freshDoc).1 = [1, 2, 3] ∧
    (allocList 3 freshDoc).2.offsets.length = 3 :=
  ⟨rfl, (ref_ids_sequential freshDoc rfl 3).1, by decide,
    (ref_ids_sequential freshDoc rfl 3).2.1⟩

/-- C3: the xref table emitted by `_finalize` over fully recorded offsets
has exactly countAllocated + 1 entry lines: the reserved free entry
`0000000000 65535 f ` first, then, for each id k from 1 to
countAllocated in id order, a fixed-width 10-character line encoding the
recorded offset of id k; the subsection header states
`0 (countAllocated+1)` and the trailer's Size is countAllocated + 1. -/
theorem xref_table_shape (os : List Nat) :
    (xrefEntryLines (os.map some)).length = os.length + 1 ∧
    (xrefEntryLines (os.map some)).head? = some "0000000000 65535 f " ∧
    (∀ k o, os.get? (k - 1) = some o → 1 ≤ k →
      (xrefEntryLines (os.map some)).get? k = some (padOffset (some o) ++ " 00000 n ")) ∧
    (∀ o : Nat, (padOffset (some o)).length = 10) ∧
    xrefSubheader (os.map some) = "0 " ++ toString (os.length + 1) ∧
    trailerSize (os.map some) = os.length + 1 := by
  refine ⟨by simp [xrefEntryLines], rfl, ?_, ?_, by simp [xrefSubheader], by simp [trailerSize]⟩
  · intro k o hk h1
    obtain ⟨m, rfl⟩ : ∃ m, k = m + 1 := ⟨k - 1, by omega⟩
    simp only [Nat.add_sub_cancel] at hk
    simp only [xrefEntryLines, List.get?_cons_succ, List.get?_map, hk, Option.map_some']
  · intro o
    show (jsSliceLast10 ("0000000000" ++ jsOffsetString (some o))).length = 10
    have h10 : "0000000000".data.length = 10 := by decide
    have hlen : ("0000000000" ++ jsOffsetString (some o)).data.length =
        10 + (jsOffsetString (some o)).data.length := by
      rw [String.data_append, List.length_append, h10]
    simp only [jsSliceLast10, String.length, List.length_drop, hlen]
    omega

theorem xref_table_shape_witness :
    ((1 : Nat) ≤ 2 ∧ [5, 123].get? (2 - 1) = some 123) ∧
    (xrefEntryLines [some 5, some 123]).get? 2 = some (padOffset (some 123) ++ " 00000 n ") ∧
    padOffset (some 123) ++ " 00000 n " = "0000000123 00000 n " :=
  ⟨⟨by decide, by decide⟩,
    (xref_table_shape [5, 123]).2.2.1 2 123 (by decide) (by decide), by decide⟩

theorem writeSeq_chunks (ds : List WriteData) : ∀ s : DocState,
    (writeSeq ds s).chunks = s.chunks ++ ds.map writeBytes ∧
    (writeSeq ds s).offset = s.offset + (ds.map (fun e => (writeBytes e).length)).sum := by
  induction ds with
  | nil => intro s; simp [writeSeq]
  | cons d ds ih =>
    intro s
    obtain ⟨h1, h2⟩ := ih ((_write d s).2)
    refine ⟨?_, ?_⟩
    · show (writeSeq ds ((_write d s).2)).chunks = _
      rw [h1]
      simp [_write, List.append_assoc]
    · show (writeSeq ds ((_write d s).2)).offset = _
      rw [h2]
      simp [_write]
      omega

/-- C7: every `_write` call appends its encoded chunk exactly once, in
call order, and returns the cumulative offset after the write: the
previous running offset plus the byte length of the chunk actually
pushed, where a string input gets a newline appended before encoding. -/
theorem write_contract (s : DocState) (d : WriteData) (t : String) (ds : List WriteData) :
    (_write d s).2.chunks = s.chunks ++ [writeBytes d] ∧
    (_write d s).1 = s.offset + (writeBytes d).length ∧
    (_write d s).1 = (_write d s).2.offset ∧
    writeBytes (.str t) = strBytes t ++ [10] ∧
    (writeSeq ds s).chunks = s.chunks ++ ds.map writeBytes ∧
    (writeSeq ds s).offset = s.offset + (ds.map (fun e => (writeBytes e).length)).sum :=
  ⟨rfl, rfl, rfl, rfl, (writeSeq_chunks ds s).1, (writeSeq_chunks ds s).2⟩

/-- C8: a `switchToPage` call whose page number lies outside the buffered
window throws an error naming the requested number and the valid
inclusive range (buffer start to buffer start plus buffer length minus
one), and leaves the document state unchanged — the throw happens before
the current page is reassigned. -/
theorem switchToPage_out_of_range (s : DocState) (n : Nat)
    (h : n < s.pageBufferStart ∨ s.pageBufferStart + s.pageBuffer.length ≤ n) :
    switchToPage n s =
      (.error (switchErrMsg n s.pageBufferStart s.pageBuffer.length), s) := by
  have hnone : jsArrGet s.pageBuffer ((n : Int) - s.pageBufferStart) = none := by
    unfold jsArrGet
    rcases h with h | h
    · rw [if_pos (by omega)]
    · rw [if_neg (by omega)]
      exact List.get?_eq_none.mpr (by omega)
  unfold switchToPage
  rw [hnone]

theorem switchToPage_out_of_range_witness :
    (9 < freshDoc.pageBufferStart ∨
      freshDoc.pageBufferStart + freshDoc.pageBuffer.length ≤ 9) ∧
    switchToPage 9 freshDoc =
      (.error (switchErrMsg 9 freshDoc.pageBufferStart freshDoc.pageBuffer.length),
        freshDoc) ∧
    switchErrMsg 9 0 0 = "switchToPage(9) out of bounds, current buffer covers pages 0 to -1" :=
  ⟨Or.inr (by decide), switchToPage_out_of_range freshDoc 9 (Or.inr (by decide)),
    by decide⟩

theorem mkDoc_version (opts : DocOptions) :
    (mkDoc opts).version = docVersion opts.pdfVersion := by
  rcases opts with ⟨pv, bp, afp, ph⟩
  cases bp <;> cases afp <;> rfl

/-- C9: an unrecognized `pdfVersion` option does not fail construction and
yields the default version 1.3; the recognized strings `1.4`, `1.5`,
`1.6`, `1.7` and `1.7ext3` select 1.4, 1.5, 1.6, 1.7 and 1.7. -/
theorem pdfVersion_fallback (v : Option String)
    (h : v ∉ ([some "1.4", some "1.5", some "1.6", some "1.7", some "1.7ext3"] :
      List (Option String))) :
    docVersion v = 1.3 ∧ (mkDoc { pdfVersion := v }).version = 1.3 ∧
    docVersion (some "1.4") = 1.4 ∧ docVersion (some "1.5") = 1.5 ∧
    docVersion (some "1.6") = 1.6 ∧ docVersion (some "1.7") = 1.7 ∧
    docVersion (some "1.7ext3") = 1.7 := by
  have hv : docVersion v = 1.3 := by
    unfold docVersion
    split <;> simp_all
  exact ⟨hv, by rw [mkDoc_version]; exact hv, rfl, rfl, rfl, rfl, rfl⟩

theorem pdfVersion_fallback_witness :
    (some "2.0" ∉ ([some "1.4", some "1.5", some "1.6", some "1.7", some "1.7ext3"] :
      List (Option String))) ∧
    docVersion (some "2.0") = 1.3 ∧
    (mkDoc { pdfVersion := some "2.0" }).version = 1.3 :=
  ⟨by decide, (pdfVersion_fallback (some "2.0") (by decide)).1,
    (pdfVersion_fallback (some "2.0") (by decide)).2.1⟩

theorem writeAll_fields (lines : List String) : ∀ s : DocState,
    (writeAll lines s).waiting = s.waiting ∧ (writeAll lines s).ended = s.ended ∧
    (writeAll lines s).finalizeLog = s.finalizeLog ∧
    (writeAll lines s).pagesKids = s.pagesKids ∧
    (writeAll lines s).pagesCount = s.pagesCount ∧
    (writeAll lines s).offsets = s.offsets := by
  induction lines with
  | nil => intro s; exact ⟨rfl, rfl, rfl, rfl, rfl, rfl⟩
  | cons l ls ih => intro s; exact ih ((_write (.str l) s).2)

theorem _finalize_fields (s : DocState) :
    (_finalize s).waiting = s.waiting ∧ (_finalize s).ended = s.ended ∧
    (_finalize s).finalizeLog = s.finalizeLog ++ [s.waiting] ∧
    (_finalize s).pagesKids = s.pagesKids ∧
    (_finalize s).pagesCount = s.pagesCount ∧
    (_finalize s).offsets = s.offsets := by
  obtain ⟨a1, a2, a3, a4, a5, a6⟩ :=
    writeAll_fields ("xref" :: xrefSubheader s.offsets :: xrefEntryLines s.offsets)
      { s with finalizeLog := s.finalizeLog ++ [s.waiting] }
  obtain ⟨b1, b2, b3, b4, b5, b6⟩ :=
    writeAll_fields ("trailer" :: "startxref" :: toString s.offset :: ["%%EOF"])
      (writeAll ("xref" :: xrefSubheader s.offsets :: xrefEntryLines s.offsets)
        { s with finalizeLog := s.finalizeLog ++ [s.waiting] })
  exact ⟨b1.trans a1, b2.trans a2, b3.trans a3, b4.trans a4, b5.trans a5, b6.trans a6⟩

/-- State evolution facts for `addPage` with buffering off, used for the
single-resident-page policy. -/
theorem addPage_unbuffered (s : DocState) (h : s.bufferPages = false) :
    (addPage s).flushedPages = s.flushedPages ++ s.pageBuffer ∧
    (addPage s).page = some ⟨s.nextPageId, s.pageHeight⟩ ∧
    (addPage s).pageBuffer = [⟨s.nextPageId, s.pageHeight⟩] := by
  unfold addPage flushPages
  rw [h]
  exact ⟨rfl, rfl, rfl⟩

theorem addPage_bufferPages (s : DocState) :
    (addPage s).bufferPages = s.bufferPages := by
  unfold addPage flushPages
  cases h : s.bufferPages <;> simp [h]

theorem addPageN_bufferPages (n : Nat) : ∀ s : DocState,
    (addPageN n s).bufferPages = s.bufferPages := by
  induction n with
  | zero => intro s; rfl
  | succ n ih => intro s; rw [addPageN, addPage_bufferPages, ih]

/-- C5: with the `bufferPages` option disabled, every `addPage` call
first flushes the entire existing page buffer and only then pushes the
newly created page, so after any nonempty sequence of `addPage` calls
the buffer holds exactly the most recently added page. -/
theorem addPage_single_resident (s : DocState) (h : s.bufferPages = false) :
    ((addPage s).flushedPages = s.flushedPages ++ s.pageBuffer) ∧
    (∃ p, (addPage s).page = some p ∧ (addPage s).pageBuffer = [p]) ∧
    (∀ n, 1 ≤ n → ∃ p, (addPageN n s).page = some p ∧ (addPageN n s).pageBuffer = [p]) := by
  obtain ⟨h1, h2, h3⟩ := addPage_unbuffered s h
  refine ⟨h1, ⟨_, h2, h3⟩, ?_⟩
  intro n hn
  obtain ⟨m, rfl⟩ : ∃ m, n = m + 1 := ⟨n - 1, by omega⟩
  have hb : (addPageN m s).bufferPages = false := (addPageN_bufferPages m s).trans h
  obtain ⟨_, g2, g3⟩ := addPage_unbuffered (addPageN m s) hb
  exact ⟨_, g2, g3⟩

theorem addPage_single_resident_witness :
    (mkDoc {}).bufferPages = false ∧
    (∃ p, (addPage (mkDoc {})).page = some p ∧ (addPage (mkDoc {})).pageBuffer = [p]) :=
  ⟨by decide, (addPage_single_resident (mkDoc {}) (by decide)).2.1⟩

/-- Construction options of the buffered three-page scenario: page
buffering on and no automatic first page, so exactly the three pages
added below are ever created. -/
def bufOpts : DocOptions := { bufferPages := true, autoFirstPage := false }

/-- A document with `bufferPages: true` in which exactly three pages have
been added (creation indices 0, 1, 2) and none flushed. -/
def doc3 : DocState := addPage (addPage (addPage (mkDoc bufOpts)))

/-- C4 counterexample: on a `bufferPages: true` document whose three
added pages are buffered, `switchToPage(2)` returns the third added page
(creation index 2), not the second (creation index 1): the code indexes
pages from 0, not from 1 as the claim states. -/
theorem switchToPage_two_not_second_added :
    doc3.pageBuffer.get? 1 = some ⟨1, 792⟩ ∧
    (switchToPage 2 doc3).1 = Except.ok ⟨2, 792⟩ ∧
    (⟨2, 792⟩ : PDFPage) ≠ ⟨1, 792⟩ :=
  ⟨by decide, rfl, by decide⟩

/-- C4 amended: with page numbers taken as 0-indexed, `switchToPage(2)`
on the three-page buffered document returns the third added page (and
`switchToPage(1)` the second), and neither flushes nor finalizes any
buffered page. -/
theorem switchToPage_zero_indexed :
    (switchToPage 2 doc3).1 = Except.ok ⟨2, 792⟩ ∧
    (switchToPage 1 doc3).1 = Except.ok ⟨1, 792⟩ ∧
    (switchToPage 2 doc3).2.pageBuffer = doc3.pageBuffer ∧
    (switchToPage 2 doc3).2.flushedPages = doc3.flushedPages ∧
    doc3.flushedPages = [] :=
  ⟨rfl, rfl, by decide, by decide, by decide⟩

/-- A document built with only default options: its automatic first page
(creation index 0, height 792) is the current page. -/
def destDoc : DocState := mkDoc {}

/-- C6 counterexample: a `FitH` named destination supplied with Y 100 on
a page of height 792 is stored with coordinate 100 unchanged, not
792 − 100 = 692: the `pageHeight − suppliedY` transform applies only to
`XYZ` destinations with a non-null Y slot, not to every named
destination. -/
theorem fitH_destination_not_flipped :
    destDoc.page = some ⟨0, 792⟩ ∧
    (addNamedDestination "top" [.vname "FitH", .vnum 100] destDoc).map (fun t => t.dests) =
      some [("top", [.vpage 0, .vname "FitH", .vnum 100])] ∧
    DestArg.vnum 100 ≠ DestArg.vnum (792 - 100) :=
  ⟨by decide, by decide, by decide⟩

/-- C6 amended: every named destination of type `XYZ` whose supplied Y is
non-null is stored with Y equal to pageHeight minus the supplied Y (in
particular Y=100 on a page of height 792 is stored as 692). -/
theorem addNamedDestination_xyz_flips_y (s : DocState) (pg : PDFPage)
    (hpg : s.page = some pg) (name : String) (a z : DestArg) (y : Int) :
    addNamedDestination name [.vname "XYZ", a, .vnum y, z] s =
      some { s with dests :=
        s.dests ++ [(name, [.vpage pg.id, .vname "XYZ", a, .vnum (pg.height - y), z])] } := by
  unfold addNamedDestination
  rw [hpg]
  simp [jsGetArg, jsArraySet, jsSub]

theorem addNamedDestination_xyz_flips_y_witness :
    destDoc.page = some ⟨0, 792⟩ ∧
    (addNamedDestination "here" [.vname "XYZ", .vnull, .vnum 100, .vnull] destDoc).map
        (fun t => t.dests) =
      some [("here", [.vpage 0, .vname "XYZ", .vnull, .vnum 692, .vnull])] := by
  refine ⟨by decide, ?_⟩
  rw [addNamedDestination_xyz_flips_y destDoc ⟨0, 792⟩ (by decide) "here" .vnull .vnull 100]
  decide

theorem addPage_pages_inv (s : DocState)
    (h1 : s.pagesKids = List.range s.pagesCount) (h2 : s.pagesCount = s.nextPageId) :
    (addPage s).pagesKids = List.range (addPage s).pagesCount ∧
    (addPage s).pagesCount = (addPage s).nextPageId := by
  unfold addPage flushPages
  cases hb : s.bufferPages <;> simp [hb, h1, h2, List.range_succ]

theorem mkDoc_pages_inv (opts : DocOptions) :
    (mkDoc opts).pagesKids = List.range (mkDoc opts).pagesCount ∧
    (mkDoc opts).pagesCount = (mkDoc opts).nextPageId := by
  rcases opts with ⟨pv, bp, afp, ph⟩
  cases bp <;> cases afp <;> exact ⟨rfl, rfl⟩

theorem addPageN_pages_inv (n : Nat) : ∀ opts : DocOptions,
    (addPageN n (mkDoc opts)).pagesKids = List.range (addPageN n (mkDoc opts)).pagesCount ∧
    (addPageN n (mkDoc opts)).pagesCount = (addPageN n (mkDoc opts)).nextPageId := by
  induction n with
  | zero => exact mkDoc_pages_inv
  | succ n ih =>
    intro opts
    obtain ⟨h1, h2⟩ := ih opts
    exact addPage_pages_inv (addPageN n (mkDoc opts)) h1 h2

/-- C10: after every sequence of `addPage` calls the root `Pages` tree
satisfies `Count = Kids.length`, and `Kids` lists each added page's
dictionary exactly once, in creation order (the pages created so far, in
creation-index order, with no duplicate); the remaining core operations
leave both fields untouched, so `addPage` is the only operation that
grows them, and it updates both together. -/
theorem pages_count_matches_kids (opts : DocOptions) (n : Nat) :
    ((addPageN n (mkDoc opts)).pagesCount = (addPageN n (mkDoc opts)).pagesKids.length) ∧
    ((addPageN n (mkDoc opts)).pagesKids = List.range (addPageN n (mkDoc opts)).pagesCount) ∧
    (addPageN n (mkDoc opts)).pagesKids.Nodup ∧
    (∀ s : DocState, (addPage s).pagesKids = s.pagesKids ++ [s.nextPageId] ∧
      (addPage s).pagesCount = s.pagesCount + 1) ∧
    (∀ s : DocState, (flushPages s).pagesKids = s.pagesKids ∧
      (flushPages s).pagesCount = s.pagesCount) ∧
    (∀ (s : DocState) (d : WriteData), (_write d s).2.pagesKids = s.pagesKids ∧
      (_write d s).2.pagesCount = s.pagesCount) ∧
    (∀ s : DocState, (ref s).2.pagesKids = s.pagesKids ∧
      (ref s).2.pagesCount = s.pagesCount) ∧
    (∀ (s : DocState) (id off : Nat), (_refEnd id off s).pagesKids = s.pagesKids ∧
      (_refEnd id off s).pagesCount = s.pagesCount) ∧
    (∀ s : DocState, (endTail s).pagesKids = s.pagesKids ∧
      (endTail s).pagesCount = s.pagesCount) ∧
    (∀ (s : DocState) (m : Nat), (switchToPage m s).2.pagesKids = s.pagesKids ∧
      (switchToPage m s).2.pagesCount = s.pagesCount) := by
  obtain ⟨h1, h2⟩ := addPageN_pages_inv n opts
  refine ⟨by rw [h1]; simp, h1, by rw [h1]; exact List.nodup_range _, ?_, ?_, ?_, ?_, ?_, ?_, ?_⟩
  · intro s
    unfold addPage flushPages
    cases hb : s.bufferPages <;> simp [hb]
  · intro s; exact ⟨rfl, rfl⟩
  · intro s d; exact ⟨rfl, rfl⟩
  · intro s; exact ⟨rfl, rfl⟩
  · intro s id off
    unfold _refEnd
    split
    · obtain ⟨_, _, _, hk, hc, _⟩ := _finalize_fields
        { s with offsets := jsArraySet none s.offsets (id - 1) (some off),
                 waiting := s.waiting - 1 }
      exact ⟨hk, hc⟩
    · exact ⟨rfl, rfl⟩
  · intro s
    unfold endTail
    split
    · obtain ⟨_, _, _, hk, hc, _⟩ := _finalize_fields s
      exact ⟨hk, hc⟩
    · exact ⟨rfl, rfl⟩
  · intro s m
    unfold switchToPage
    split <;> exact ⟨rfl, rfl⟩

theorem _refEnd_fields (id off : Nat) (s : DocState) :
    (_refEnd id off s).waiting = s.waiting - 1 ∧
    ((_refEnd id off s).ended =
      (if s.waiting - 1 = 0 ∧ s.ended then false else s.ended)) ∧
    ((_refEnd id off s).finalizeLog =
      (if s.waiting - 1 = 0 ∧ s.ended then s.finalizeLog ++ [s.waiting - 1]
       else s.finalizeLog)) := by
  unfold _refEnd
  split
  · next hc =>
    obtain ⟨hw, _, hl, _⟩ := _finalize_fields
      { s with offsets := jsArraySet none s.offsets (id - 1) (some off),
               waiting := s.waiting - 1 }
    exact ⟨hw, rfl, hl⟩
  · next hc =>
    exact ⟨rfl, rfl, rfl⟩

theorem endTail_fields (s : DocState) :
    (endTail s).waiting = s.waiting ∧
    ((endTail s).ended = (if s.waiting = 0 then s.ended else true)) ∧
    ((endTail s).finalizeLog =
      (if s.waiting = 0 then s.finalizeLog ++ [s.waiting] else s.finalizeLog)) := by
  unfold endTail
  split
  · next hc =>
    obtain ⟨hw, he, hl, _⟩ := _finalize_fields s
    exact ⟨hw, he, hl⟩
  · next hc =>
    exact ⟨rfl, rfl, rfl⟩

theorem docRun_log_zero (tr : List DocEv) : ∀ s : DocState,
    (∀ x ∈ s.finalizeLog, x = 0) → ∀ x ∈ (docRun s tr).finalizeLog, x = 0 := by
  induction tr with
  | nil => intro s h; exact h
  | cons e tr ih =>
    intro s h
    refine ih (docStep s e) ?_
    cases e with
    | alloc => exact h
    | refEnd id off =>
      obtain ⟨_, _, hl⟩ := _refEnd_fields id off s
      intro x hx
      have hx' : x ∈ (_refEnd id off s).finalizeLog := hx
      rw [hl] at hx'
      by_cases hc : s.waiting - 1 = 0 ∧ s.ended = true
      · rw [if_pos hc] at hx'
        rcases List.mem_append.mp hx' with h' | h'
        · exact h x h'
        · simp only [List.mem_singleton] at h'
          rw [h', hc.1]
      · rw [if_neg hc] at hx'
        exact h x hx'
    | endCall =>
      obtain ⟨_, _, hl⟩ := endTail_fields s
      intro x hx
      have hx' : x ∈ (endTail s).finalizeLog := hx
      rw [hl] at hx'
      by_cases hc : s.waiting = 0
      · rw [if_pos hc] at hx'
        rcases List.mem_append.mp hx' with h' | h'
        · exact h x h'
        · simp only [List.mem_singleton] at h'
          rw [h', hc]
      · rw [if_neg hc] at hx'
        exact h x hx'

/-- After `end()` has run, the machine is in exactly one of two
configurations: the file has been completed once, at outstanding count
zero, or completion is deferred with the ended flag set and the counter
still positive. -/
def postEndInv (s : DocState) : Prop :=
  (s.finalizeLog = [0] ∧ s.ended = false) ∨
  (s.finalizeLog = [] ∧ s.ended = true ∧ 0 < s.waiting)

theorem docRun_postEnd (tr : List DocEv) : ∀ s : DocState,
    wfTrace s.waiting tr = true → tr.countP isEndCall = 0 →
    postEndInv s → postEndInv (docRun s tr) := by
  induction tr with
  | nil => intro s _ _ h; exact h
  | cons e tr ih =>
    intro s hwf hcnt hinv
    cases e with
    | alloc =>
      refine ih ((ref s).2) hwf ?_ ?_
      · simpa [List.countP_cons, isEndCall] using hcnt
      · rcases hinv with ⟨h1, h2⟩ | ⟨h1, h2, h3⟩
        · exact Or.inl ⟨h1, h2⟩
        · refine Or.inr ⟨h1, h2, ?_⟩
          show (0 : Int) < s.waiting + 1
          omega
    | refEnd id off =>
      have hwf' : (0 < s.waiting) ∧ wfTrace (s.waiting - 1) tr = true := by
        simpa [wfTrace] using hwf
      obtain ⟨hw, he, hl⟩ := _refEnd_fields id off s
      refine ih (_refEnd id off s) ?_ ?_ ?_
      · rw [hw]; exact hwf'.2
      · simpa [List.countP_cons, isEndCall] using hcnt
      · rcases hinv with ⟨h1, h2⟩ | ⟨h1, h2, h3⟩
        · have hc : ¬(s.waiting - 1 = 0 ∧ s.ended = true) := by rw [h2]; simp
          exact Or.inl ⟨by rw [hl, if_neg hc]; exact h1, by rw [he, if_neg hc]; exact h2⟩
        · by_cases hz : s.waiting - 1 = 0
          · have hc : s.waiting - 1 = 0 ∧ s.ended = true := ⟨hz, h2⟩
            refine Or.inl ⟨?_, by rw [he, if_pos hc]⟩
            rw [hl, if_pos hc, h1, hz]
            rfl
          · have hc : ¬(s.waiting - 1 = 0 ∧ s.ended = true) := fun hx => hz hx.1
            refine Or.inr ⟨by rw [hl, if_neg hc]; exact h1,
              by rw [he, if_neg hc]; exact h2, ?_⟩
            rw [hw]
            omega
    | endCall =>
      exfalso
      simp [List.countP_cons, isEndCall] at hcnt

theorem docRun_end_once (tr : List DocEv) : ∀ s : DocState,
    s.finalizeLog = [] → s.ended = false → 0 ≤ s.waiting →
    wfTrace s.waiting tr = true → tr.countP isEndCall = 1 →
    (docRun s tr).waiting = 0 → (docRun s tr).finalizeLog = [0] := by
  induction tr with
  | nil =>
    intro s _ _ _ _ hcnt _
    simp [List.countP_nil] at hcnt
  | cons e tr ih =>
    intro s hlog hend hw hwf hcnt hfin
    cases e with
    | alloc =>
      refine ih ((ref s).2) hlog hend ?_ hwf ?_ hfin
      · show (0 : Int) ≤ s.waiting + 1
        omega
      · simpa [List.countP_cons, isEndCall] using hcnt
    | refEnd id off =>
      have hwf' : (0 < s.waiting) ∧ wfTrace (s.waiting - 1) tr = true := by
        simpa [wfTrace] using hwf
      have hc : ¬(s.waiting - 1 = 0 ∧ s.ended = true) := by rw [hend]; simp
      obtain ⟨hwq, he, hl⟩ := _refEnd_fields id off s
      refine ih (_refEnd id off s) ?_ ?_ ?_ ?_ ?_ hfin
      · rw [hl, if_neg hc]; exact hlog
      · rw [he, if_neg hc]; exact hend
      · rw [hwq]; omega
      · rw [hwq]; exact hwf'.2
      · simpa [List.countP_cons, isEndCall] using hcnt
    | endCall =>
      have hcnt' : tr.countP isEndCall = 0 := by
        simpa [List.countP_cons, isEndCall] using hcnt
      obtain ⟨hwq, he, hl⟩ := endTail_fields s
      have hinv : postEndInv (endTail s) := by
        by_cases hz : s.waiting = 0
        · refine Or.inl ⟨?_, by rw [he, if_pos hz]; exact hend⟩
          rw [hl, if_pos hz, hlog, hz]
          rfl
        · exact Or.inr ⟨by rw [hl, if_neg hz]; exact hlog,
            by rw [he, if_neg hz], by rw [hwq]; omega⟩
      have hpost := docRun_postEnd tr (endTail s) (by rw [hwq]; exact hwf) hcnt' hinv
      rcases hpost with ⟨h1, _⟩ | ⟨_, _, h3⟩
      · exact h1
      · exfalso
        have hfin' : (docRun (endTail s) tr).waiting = 0 := hfin
        omega

/-- C1: over every well-formed trace of allocations, reference
completions and one `end()` call, the file-completion step `_finalize`
never runs while the outstanding counter is nonzero (every entry of the
completion log is 0), and it runs exactly once — the singleton log
`[0]` — once the counter reaches zero, whether that happens
synchronously inside `end()` or later inside a reference's completion
callback `_refEnd` after `end()` has set the ended flag. -/
theorem end_finalizes_exactly_at_zero (s : DocState) (tr : List DocEv)
    (hlog : s.finalizeLog = []) (hend : s.ended = false) (hw : 0 ≤ s.waiting)
    (hwf : wfTrace s.waiting tr = true) :
    (∀ x ∈ (docRun s tr).finalizeLog, x = 0) ∧
    (tr.countP isEndCall = 1 → (docRun s tr).waiting = 0 →
      (docRun s tr).finalizeLog = [0]) := by
  constructor
  · exact docRun_log_zero tr s (by rw [hlog]; simp)
  · intro h1 h2
    exact docRun_end_once tr s hlog hend hw hwf h1 h2

theorem end_finalizes_exactly_at_zero_witness :
    (freshDoc.finalizeLog = [] ∧ freshDoc.ended = false ∧
      (0 : Int) ≤ freshDoc.waiting ∧
      wfTrace freshDoc.waiting [DocEv.alloc, DocEv.endCall, DocEv.refEnd 1 42] = true ∧
      [DocEv.alloc, DocEv.endCall, DocEv.refEnd 1 42].countP isEndCall = 1 ∧
      (docRun freshDoc [DocEv.alloc, DocEv.endCall, DocEv.refEnd 1 42]).waiting = 0) ∧
    (docRun freshDoc [DocEv.alloc, DocEv.endCall, DocEv.refEnd 1 42]).finalizeLog = [0] :=
  ⟨⟨rfl, rfl, by decide, by decide, by decide, by decide⟩,
    (end_finalizes_exactly_at_zero freshDoc
        [DocEv.alloc, DocEv.endCall, DocEv.refEnd 1 42] rfl rfl (by decide)
        (by decide)).2 (by decide) (by decide)⟩

end PDFKitten
